import Mathlib

/-!
Shallow embedding of src/lib/multiwayblock.py: the PyTorch module MultiWayBlock
and its building blocks DropPath, MultiHeadSelfAttention, Mlp and Block.

Modelling conventions.
Python nonnegative integers are modelled by Nat.  The source expression
int(a / b) (float true division followed by truncation toward zero), used in
make_path to shrink channel widths, is modelled by Nat floor division; the two
agree for every magnitude a channel-width computation can hold.  Machine reals
are modelled by rationals where only field arithmetic matters and by real
numbers where softmax and exp are involved.  Tensors appear at two abstraction
levels: shapes only, for the forward-pass plumbing of MultiWayBlock, and total
index functions, for the PixelShuffle / PixelUnshuffle value semantics.
-/

/-- Configuration fields consumed by MultiWayBlock.__init__ and make_path
(src/lib/multiwayblock.py lines 111-154). -/
structure Config where
  hidden_size : Nat
  num_path : Nat
  direction : Nat
  pixshuf_factor : Nat
  concat : Bool
  deriving DecidableEq, Repr

/-- self.median = (num_path//2)+1 if num_path%2==1 else num_path//2
(line 121). -/
def medianOf (num_path : Nat) : Nat :=
  if num_path % 2 = 1 then num_path / 2 + 1 else num_path / 2

/-- new_dim computed by make_path for path index i (lines 136-147).
The source's int(self.dim / (self.pixshuf_factor**k)) is Nat floor division
here. -/
def workingDim (dim f direction median i : Nat) : Nat :=
  if direction = 0 then
    if i < median then dim * f ^ (i * 2)
    else if median < i then dim / f ^ ((i - median) * 2)
    else dim
  else if direction = 1 then
    if i = 1 then dim else dim * f ^ ((i - 1) * 2)
  else
    if i = 1 then dim else dim / f ^ ((i - 1) * 2)

/-- Kind of the resample-in transform chosen for a path in
_forward_each_paths (lines 160-180): shuf1 is either nn.PixelUnshuffle
(channel-expand, spatial-shrink) or nn.PixelShuffle (channel-shrink,
spatial-expand). -/
inductive RKind where
  | unshuffle
  | shuffle
  deriving DecidableEq, Repr

/-- Resample-in transform of path i as selected in _forward_each_paths
(lines 160-180): none means flag = False (the identity path), otherwise the
kind and the integer factor passed to the torch module.  The resample-out
transform (shuf2) is the opposite kind at the same factor. -/
def pathResample (direction median f i : Nat) : Option (RKind × Nat) :=
  if direction = 0 then
    if i < median then some (RKind.unshuffle, f * i)
    else if median < i then some (RKind.shuffle, f * (i - median))
    else none
  else if direction = 1 then
    if i = 1 then none else some (RKind.unshuffle, f * (i - 1))
  else
    if i = 1 then none else some (RKind.shuffle, f * (i - 1))

/-- Fields stored on self by MultiWayBlock.__init__ (lines 119-125), plus the
widths the per-path Block submodules were constructed with (make_path writes
workingDim into config.hidden_size before instantiating path i, line 149-151).
-/
structure MWBState where
  dim : Nat
  num_path : Nat
  median : Nat
  total_dim : Nat
  pixshuf_factor : Nat
  direction : Nat
  concat : Bool
  pathDims : List Nat
  deriving DecidableEq, Repr

def mwbState (cfg : Config) : MWBState :=
  let dim := cfg.hidden_size
  let median := medianOf cfg.num_path
  { dim := dim
    num_path := cfg.num_path
    median := median
    total_dim := dim * cfg.num_path
    pixshuf_factor := cfg.pixshuf_factor
    direction := cfg.direction
    concat := cfg.concat
    pathDims := (List.range' 1 cfg.num_path).map
      (workingDim dim cfg.pixshuf_factor cfg.direction median) }

/-- Effect of make_path (lines 133-154) on the caller's config object: each
loop iteration writes the derived width into config.hidden_size, and line 154
restores the base value self.dim (captured from config.hidden_size at line 119)
after the loop. -/
def makePathConfig (cfg : Config) : Config :=
  let dim := cfg.hidden_size
  let median := medianOf cfg.num_path
  let c1 := (List.range' 1 cfg.num_path).foldl
    (fun c i =>
      { c with hidden_size := workingDim dim cfg.pixshuf_factor cfg.direction median i })
    cfg
  { c1 with hidden_size := dim }

/-- Assertion failures possible in MultiWayBlock.__init__ (lines 115-117). -/
inductive ConfigError where
  | badDirection
  | evenNumPathWithDirectionZero
  deriving DecidableEq, Repr

/-- MultiWayBlock.__init__ (lines 111-130): the two assertions, then the self
fields and the per-path submodule widths, and the final value of the caller's
config object.  The block factory called at line 151 is supplied by the caller
(it is not part of src/lib/multiwayblock.py) and is modelled as non-failing. -/
def mwbInit (cfg : Config) : Except ConfigError (MWBState × Config) :=
  if ¬ (cfg.direction = 0 ∨ cfg.direction = 1 ∨ cfg.direction = 2) then
    Except.error ConfigError.badDirection
  else if cfg.direction = 0 ∧ cfg.num_path % 2 = 0 then
    Except.error ConfigError.evenNumPathWithDirectionZero
  else
    Except.ok (mwbState cfg, makePathConfig cfg)

/-- Scaling factor the DropPath.drop_path body (lines 18-23) multiplies one
batch sample by: mask is that sample's Bernoulli(keep_prob) draw, and the
draw is divided by keep_prob when keep_prob > 0 and scale_by_keep. -/
def dropPathFactor (drop_prob : ℚ) (scale_by_keep : Bool) (mask : Bool) : ℚ :=
  let keep_prob := 1 - drop_prob
  let r : ℚ := if mask then 1 else 0
  if 0 < keep_prob ∧ scale_by_keep then r / keep_prob else r

/-- DropPath.drop_path restricted to a single scalar entry of a sample whose
Bernoulli draw is mask (lines 15-23). -/
def dropPathSample (drop_prob : ℚ) (training scale_by_keep : Bool)
    (mask : Bool) (v : ℚ) : ℚ :=
  if drop_prob = 0 ∨ training = false then v
  else v * dropPathFactor drop_prob scale_by_keep mask

/-- Token-sequence tensor of shape (B, N, D) with a total index function for
its entries. -/
structure Tensor3 where
  B : Nat
  N : Nat
  D : Nat
  data : Nat → Nat → Nat → ℚ

/-- Body of DropPath.drop_path on a (B, N, D) tensor (lines 15-23): early
return when drop_prob == 0 or not training, otherwise one Bernoulli draw per
batch sample (shape (B, 1, ..., 1)) broadcast-multiplied into the input.
DropPath.forward never actually reaches this body: see dropPathForward. -/
def dropPath (x : Tensor3) (drop_prob : ℚ) (training scale_by_keep : Bool)
    (mask : Nat → Bool) : Tensor3 :=
  if drop_prob = 0 ∨ training = false then x
  else
    { B := x.B
      N := x.N
      D := x.D
      data := fun b n d =>
        x.data b n d * dropPathFactor drop_prob scale_by_keep (mask b) }

/-- Runtime error of the Python interpreter itself, as opposed to a shape
error raised by a torch operation. -/
inductive PyError where
  | typeError
  deriving DecidableEq, Repr

/-- DropPath.forward (lines 25-26).  drop_path is declared inside the class
without a self parameter and without a staticmethod decorator (line 15), yet
forward invokes it through self as a bound method: the interpreter prepends
the instance, so self.drop_path(x, self.drop_prob, self.training,
self.scale_by_keep) passes five positional arguments to a four-parameter
function.  Every call therefore raises TypeError before the drop_path body
(dropPath above) can run, whatever the input, rate or mode. -/
def dropPathForward (x : Tensor3) (drop_prob : ℚ) (training scale_by_keep : Bool)
    (mask : Nat → Bool) : Except PyError Tensor3 :=
  Except.error PyError.typeError

/-- Block.forward (lines 94-99), abstract over the submodules (they hold
learned parameters).  The members drop_path1 and drop_path2 that Block.__init__
creates (lines 88 and 92) are taken as arguments to make their use, or lack of
it, visible: the source's forward never applies them. -/
def blockForward {T A : Type} [Add T]
    (norm1 : T → T) (attn : T → T × A) (dropPath1 : T → T)
    (norm2 : T → T) (mlp : T → T) (dropPath2 : T → T) (x : T) : T × A :=
  let skip := x
  let p := attn (norm1 x)
  let x1 := skip + p.1
  (x1 + mlp (norm2 x1), p.2)

/-- Modelled from the spec (§4.4): the claimed composition
x1 = x + StochasticDepth(Attention(Norm(x))),
out = x1 + StochasticDepth(FeedForward(Norm(x1))), for comparison with
blockForward. -/
def blockForwardSpec {T A : Type} [Add T]
    (norm1 : T → T) (attn : T → T × A) (dropPath1 : T → T)
    (norm2 : T → T) (mlp : T → T) (dropPath2 : T → T) (x : T) : T × A :=
  let p := attn (norm1 x)
  let x1 := x + dropPath1 p.1
  (x1 + dropPath2 (mlp (norm2 x1)), p.2)

/-- Spatial feature-map shape (batch, channels, height, width). -/
structure Shape4 where
  B : Nat
  C : Nat
  H : Nat
  W : Nat
  deriving DecidableEq, Repr

/-- Token-sequence shape (batch, tokens, channels). -/
structure Shape3 where
  B : Nat
  N : Nat
  D : Nat
  deriving DecidableEq, Repr

/-- Runtime shape failures PyTorch raises inside MultiWayBlock.forward. -/
inductive ShapeError where
  | viewMismatch
  | unshuffleIndivisible
  | shuffleIndivisible
  | widthMismatch
  | catMismatch
  | addMismatch
  | emptyFeatures
  deriving DecidableEq, Repr

/-- Shape semantics of nn.PixelUnshuffle(r): both spatial sizes must be
divisible by r; channels multiply by r^2, spatial sizes divide by r. -/
def pixelUnshuffleShape (r : Nat) (s : Shape4) : Except ShapeError Shape4 :=
  if s.H % r = 0 ∧ s.W % r = 0 then
    Except.ok { B := s.B, C := s.C * r ^ 2, H := s.H / r, W := s.W / r }
  else Except.error ShapeError.unshuffleIndivisible

/-- Shape semantics of nn.PixelShuffle(r): channels must be divisible by r^2;
channels divide by r^2, spatial sizes multiply by r. -/
def pixelShuffleShape (r : Nat) (s : Shape4) : Except ShapeError Shape4 :=
  if s.C % r ^ 2 = 0 then
    Except.ok { B := s.B, C := s.C / r ^ 2, H := s.H * r, W := s.W * r }
  else Except.error ShapeError.shuffleIndivisible

/-- shuf1 of _forward_each_paths applied to the current map. -/
def resampleInShape (spec : Option (RKind × Nat)) (s : Shape4) :
    Except ShapeError Shape4 :=
  match spec with
  | none => Except.ok s
  | some (RKind.unshuffle, r) => pixelUnshuffleShape r s
  | some (RKind.shuffle, r) => pixelShuffleShape r s

/-- shuf2 of _forward_each_paths: the opposite torch module at the same
factor (lines 162-180). -/
def resampleOutShape (spec : Option (RKind × Nat)) (s : Shape4) :
    Except ShapeError Shape4 :=
  match spec with
  | none => Except.ok s
  | some (RKind.unshuffle, r) => pixelShuffleShape r s
  | some (RKind.shuffle, r) => pixelUnshuffleShape r s

/-- Shape semantics of one path's Block submodule, constructed at width dim:
LayerNorm(dim) and the Linear layers inside raise unless the incoming token
width equals dim, and when they accept, the block preserves the shape. -/
def blockShape (dim : Nat) (s : Shape3) : Except ShapeError Shape3 :=
  if s.D = dim then Except.ok s else Except.error ShapeError.widthMismatch

/-- One iteration of the loop in _forward_each_paths (lines 159-190): shuf1,
flatten to tokens (the view at line 184 merges H and W exactly), run the
path's Block at the width make_path constructed it with, split the tokens back
to the spatial map captured at line 183 (the view at line 186), then shuf2. -/
def pathStep (st : MWBState) (i : Nat) (s : Shape4) : Except ShapeError Shape4 := do
  let spec := pathResample st.direction st.median st.pixshuf_factor i
  let s1 ← resampleInShape spec s
  let t ← blockShape (workingDim st.dim st.pixshuf_factor st.direction st.median i)
    { B := s1.B, N := s1.H * s1.W, D := s1.C }
  resampleOutShape spec { B := t.B, C := t.D, H := s1.H, W := s1.W }

/-- Loop of _forward_each_paths over the path indices (lines 159-191): x is
threaded through the iterations (each path receives the previous path's
restored output), features collects each path's output, and attn_probs is
overwritten by every path; none models the variable before any path has run. -/
def pathsLoop (st : MWBState) :
    List Nat → Shape4 → List Shape4 → Option Nat →
    Except ShapeError (Shape4 × List Shape4 × Option Nat)
  | [], x, feats, probs => Except.ok (x, feats, probs)
  | i :: rest, x, feats, _ => do
    let x1 ← pathStep st i x
    pathsLoop st rest x1 (feats ++ [x1]) (some i)

/-- One torch.cat step along dim=1: batch and spatial sizes must agree,
channel counts add. -/
def catStep (acc t : Shape4) : Except ShapeError Shape4 :=
  if acc.B = t.B ∧ acc.H = t.H ∧ acc.W = t.W then
    Except.ok { B := acc.B, C := acc.C + t.C, H := acc.H, W := acc.W }
  else Except.error ShapeError.catMismatch

/-- Shape semantics of torch.cat(features, dim=1) (line 199).  The empty list
is the error the source would raise on an empty features list. -/
def catShapes : List Shape4 → Except ShapeError Shape4
  | [] => Except.error ShapeError.emptyFeatures
  | s :: rest => rest.foldlM catStep s

/-- One elementwise-add step.  torch add would broadcast; in every reachable
state all features have equal shapes (each path restores its input shape),
which is what the model requires. -/
def sumStep (acc t : Shape4) : Except ShapeError Shape4 :=
  if acc = t then Except.ok acc else Except.error ShapeError.addMismatch

/-- Shape semantics of features[0] + features[1] + ... (lines 203-205).
The empty list is the IndexError of features[0]. -/
def sumShapes : List Shape4 → Except ShapeError Shape4
  | [] => Except.error ShapeError.emptyFeatures
  | s :: rest => rest.foldlM sumStep s

/-- Largest k <= m with k * k <= n, by downward search from m.  Structurally
recursive, so the kernel can evaluate it (Nat.sqrt is defined by well-founded
recursion and cannot be evaluated by the kernel). -/
def isqrtAux (n : Nat) : Nat → Nat
  | 0 => 0
  | k + 1 => if (k + 1) * (k + 1) ≤ n then k + 1 else isqrtAux n k

/-- Floor integer square root, modelling H = W = int(np.sqrt(N)) at line 195
(the float sqrt is exact for any realistic N).  Certified against Nat.sqrt
below. -/
def isqrt (n : Nat) : Nat :=
  isqrtAux n n

lemma isqrtAux_eq_min (n : Nat) : ∀ m : Nat, isqrtAux n m = min m (Nat.sqrt n) := by
  intro m
  induction m with
  | zero => simp [isqrtAux]
  | succ k ih =>
    unfold isqrtAux
    by_cases h : (k + 1) * (k + 1) ≤ n
    · rw [if_pos h]
      have : k + 1 ≤ Nat.sqrt n := Nat.le_sqrt.mpr h
      omega
    · rw [if_neg h]
      rw [ih]
      have : ¬ (k + 1 ≤ Nat.sqrt n) := fun hc => h (Nat.le_sqrt.mp hc)
      omega

lemma isqrt_eq (n : Nat) : isqrt n = Nat.sqrt n := by
  rw [isqrt, isqrtAux_eq_min]
  have := Nat.sqrt_le_self n
  omega

/-- MultiWayBlock.forward (lines 193-208) at shape level, also reporting which
path's attention-probability tensor is returned (as that path's index).
H = W = int(np.sqrt(N)) is isqrt; the view at line 196 checks the element
count, as torch view does. -/
def mwbForwardShape (st : MWBState) (s : Shape3) :
    Except ShapeError (Shape3 × Option Nat) := do
  let H := isqrt s.N
  let s4 ←
    if s.B * s.N * s.D = s.B * s.D * (H * H) then
      Except.ok { B := s.B, C := s.D, H := H, W := H }
    else Except.error ShapeError.viewMismatch
  let r ← pathsLoop st (List.range' 1 st.num_path) s4 [] none
  let feats := r.2.1
  let probs := r.2.2
  if st.concat then do
    let c ← catShapes feats
    let t ←
      if c.B * c.C * (c.H * c.W) = s.B * st.total_dim * s.N then
        Except.ok (Shape3.mk s.B s.N st.total_dim)
      else (Except.error ShapeError.viewMismatch : Except ShapeError Shape3)
    if t.D = st.total_dim then
      Except.ok ({ B := t.B, N := t.N, D := st.dim }, probs)
    else Except.error ShapeError.widthMismatch
  else do
    let f ← sumShapes feats
    if f.B * f.C * (f.H * f.W) = s.B * st.dim * s.N then
      Except.ok ({ B := s.B, N := s.N, D := st.dim }, probs)
    else Except.error ShapeError.viewMismatch

/-- Feature-map tensor (B, C, H, W) with a total index function. -/
structure Tensor4 where
  B : Nat
  C : Nat
  H : Nat
  W : Nat
  data : Nat → Nat → Nat → Nat → ℚ

/-- Value semantics of nn.PixelUnshuffle(r): output channel c holds block
offset c % r^2 (row-major inside an r x r spatial block) of original channel
c / r^2. -/
def pixelUnshuffleT (r : Nat) (t : Tensor4) : Option Tensor4 :=
  if t.H % r = 0 ∧ t.W % r = 0 then
    some
      { B := t.B
        C := t.C * r ^ 2
        H := t.H / r
        W := t.W / r
        data := fun b c h w =>
          t.data b (c / r ^ 2) (h * r + c % r ^ 2 / r) (w * r + c % r ^ 2 % r) }
  else none

/-- Value semantics of nn.PixelShuffle(r): out[b][c][h][w] =
in[b][c * r^2 + (h % r) * r + w % r][h / r][w / r]. -/
def pixelShuffleT (r : Nat) (t : Tensor4) : Option Tensor4 :=
  if t.C % r ^ 2 = 0 then
    some
      { B := t.B
        C := t.C / r ^ 2
        H := t.H * r
        W := t.W * r
        data := fun b c h w =>
          t.data b (c * r ^ 2 + h % r * r + w % r) (h / r) (w / r) }
  else none

/-- softmax(dim=-1) over one row, in exact real arithmetic (noncomputable
because exp over the reals is; the attention claims are settled by explicit
terms rather than by evaluation). -/
noncomputable def softmaxRow {n : Nat} (v : Fin n → ℝ) (i : Fin n) : ℝ :=
  Real.exp (v i) / ∑ j, Real.exp (v j)

/-- MultiHeadSelfAttention.forward (lines 45-58) after the qkv projection and
head split, abstract over the learned layers: q, k, v are the per-head
query/key/value tensors produced at line 49, and attnDrop, proj, projDrop are
the dropout and output-projection maps, applied where the source applies them.
The second component of the result is attn_probs, bound at line 52 before
attn_drop is applied at line 53.  The head-merge reshape of line 55 is left
implicit in the output index order (batch, token, head, head-dim). -/
noncomputable def mhsaForward {B nh N dh : Nat}
    (q k v : Fin B → Fin nh → Fin N → Fin dh → ℝ) (scale : ℝ)
    (attnDrop :
      (Fin B → Fin nh → Fin N → Fin N → ℝ) → Fin B → Fin nh → Fin N → Fin N → ℝ)
    (proj projDrop :
      (Fin B → Fin N → Fin nh → Fin dh → ℝ) → Fin B → Fin N → Fin nh → Fin dh → ℝ) :
    (Fin B → Fin N → Fin nh → Fin dh → ℝ) × (Fin B → Fin nh → Fin N → Fin N → ℝ) :=
  let attn := fun b hh i j => (∑ d, q b hh i d * k b hh j d) * scale
  let attn_probs := fun b hh i => softmaxRow (attn b hh i)
  let attnD := attnDrop attn_probs
  let out := fun b i hh d => ∑ j, attnD b hh i j * v b hh j d
  (projDrop (proj out), attn_probs)

instance {ε α : Type} [DecidableEq ε] [DecidableEq α] :
    DecidableEq (Except ε α) := fun a b =>
  match a, b with
  | Except.ok x, Except.ok y => decidable_of_iff (x = y) (by simp)
  | Except.ok _, Except.error _ => isFalse (fun h => Except.noConfusion h)
  | Except.error _, Except.ok _ => isFalse (fun h => Except.noConfusion h)
  | Except.error e, Except.error f => decidable_of_iff (e = f) (by simp)

lemma makePathConfig_fold_fields (g : Nat → Nat) :
    ∀ (l : List Nat) (c : Config),
      (l.foldl (fun c i => { c with hidden_size := g i }) c).num_path = c.num_path ∧
      (l.foldl (fun c i => { c with hidden_size := g i }) c).direction = c.direction ∧
      (l.foldl (fun c i => { c with hidden_size := g i }) c).pixshuf_factor = c.pixshuf_factor ∧
      (l.foldl (fun c i => { c with hidden_size := g i }) c).concat = c.concat := by
  intro l
  induction l with
  | nil => intro c; exact ⟨rfl, rfl, rfl, rfl⟩
  | cons i rest ih =>
    intro c
    simpa [List.foldl_cons] using ih { c with hidden_size := g i }

lemma makePathConfig_eq (cfg : Config) : makePathConfig cfg = cfg := by
  unfold makePathConfig
  obtain ⟨h, n, d, p, cc⟩ := cfg
  have hf := makePathConfig_fold_fields
    (workingDim h p d (medianOf n)) (List.range' 1 n) (Config.mk h n d p cc)
  obtain ⟨h1, h2, h3, h4⟩ := hf
  simp only [Config.mk.injEq]
  exact ⟨trivial, h1, h2, h3, h4⟩

/-- Claim C10: MultiWayBlock construction leaves the caller's configuration
object unchanged: make_path writes each derived width into config.hidden_size
while building that path, but restores the original base value before
construction returns, so the configuration the caller holds after a successful
construction equals the one it supplied.  (Forward never touches the config:
forward only reads the copies stored on self.) -/
theorem mwb_construction_restores_config (cfg : Config) (st : MWBState)
    (c : Config) (h : mwbInit cfg = Except.ok (st, c)) : c = cfg := by
  unfold mwbInit at h
  split_ifs at h
  rw [Except.ok.injEq, Prod.mk.injEq] at h
  rw [← h.2]
  exact makePathConfig_eq cfg

/-- Witness for C10 at the configuration hidden_size=64, num_path=3,
direction=0, pixshuf_factor=2, concat=false. -/
theorem mwb_construction_restores_config_witness :
    Config.mk 64 3 0 2 false = Config.mk 64 3 0 2 false :=
  mwb_construction_restores_config (Config.mk 64 3 0 2 false)
    (mwbState (Config.mk 64 3 0 2 false)) (Config.mk 64 3 0 2 false) rfl

/-- Claim C4 (corrected): MultiWayBlock.__init__ fails on exactly the two
asserted conditions: direction outside {0,1,2}, or direction = 0 with an even
num_path.  A non-integer working dimension does not make construction fail
(see the counterexample below): int() silently truncates it. -/
theorem mwb_init_error_iff (cfg : Config) :
    (∃ e, mwbInit cfg = Except.error e) ↔
      (3 ≤ cfg.direction ∨ (cfg.direction = 0 ∧ cfg.num_path % 2 = 0)) := by
  unfold mwbInit
  by_cases h1 : cfg.direction = 0 ∨ cfg.direction = 1 ∨ cfg.direction = 2
  · rw [if_neg (not_not_intro h1)]
    by_cases h2 : cfg.direction = 0 ∧ cfg.num_path % 2 = 0
    · rw [if_pos h2]
      constructor
      · intro _
        right
        exact h2
      · intro _
        exact ⟨ConfigError.evenNumPathWithDirectionZero, rfl⟩
    · rw [if_neg h2]
      constructor
      · rintro ⟨e, he⟩
        exact Except.noConfusion he
      · intro h
        rcases h with h | h
        · exfalso
          rcases h1 with h1 | h1 | h1 <;> omega
        · exact absurd h h2
  · rw [if_pos h1]
    constructor
    · intro _
      left
      rcases Nat.lt_or_ge cfg.direction 3 with ho | ho
      · exfalso
        apply h1
        omega
      · exact ho
    · intro _
      exact ⟨ConfigError.badDirection, rfl⟩

/-- Counterexample for C4 as stated: with hidden_size=10, num_path=2,
direction=2, pixshuf_factor=2, path 2's working dimension is 10 / 2^2 = 2.5,
not a positive integer (the truncated width 2 times the divisor 2^2 is 8, not
10), yet construction completes silently instead of raising. -/
theorem mwb_init_accepts_noninteger_width :
    mwbInit (Config.mk 10 2 2 2 false) =
      Except.ok (mwbState (Config.mk 10 2 2 2 false), Config.mk 10 2 2 2 false) ∧
    workingDim 10 2 2 (medianOf 2) 2 * 2 ^ ((2 - 1) * 2) ≠ 10 := by
  constructor
  · rfl
  · decide

/-- Claim C5 (code bug): DropPath.forward never returns its input unchanged,
because the bound-method call at line 26 passes five positional arguments to
the selfless four-parameter drop_path of line 15, so every call — including
drop probability 0 and eval mode, the very cases the claim covers — raises
TypeError instead of returning x.  The drop_path body that forward was meant
to reach would indeed act as the identity there, which is what the claim (and
the spec) describe: the second conjunct settles that the claim is right about
the intended body and only the delegation is broken. -/
theorem droppath_forward_raises (x : Tensor3) (p : ℚ)
    (training scale_by_keep : Bool) (mask : Nat → Bool)
    (h : p = 0 ∨ training = false) :
    dropPathForward x p training scale_by_keep mask =
      Except.error PyError.typeError ∧
    dropPath x p training scale_by_keep mask = x := by
  constructor
  · rfl
  · unfold dropPath
    rw [if_pos h]

/-- Witness for C5: a concrete tensor at p = 0 in training mode; forward
raises while the unreached body would return it unchanged. -/
theorem droppath_forward_raises_witness :
    dropPathForward (Tensor3.mk 2 3 4 fun b n d => (b + n + d : ℚ)) 0 true true
        (fun _ => false) = Except.error PyError.typeError ∧
    dropPath (Tensor3.mk 2 3 4 fun b n d => (b + n + d : ℚ)) 0 true true
        (fun _ => false) =
      Tensor3.mk 2 3 4 (fun b n d => (b + n + d : ℚ)) :=
  droppath_forward_raises (Tensor3.mk 2 3 4 fun b n d => (b + n + d : ℚ)) 0 true
    true (fun _ => false) (Or.inl rfl)

/-- Claim C2 (code bug): Block.forward does not gate either residual branch
with StochasticDepth, although Block.__init__ constructs drop_path1 and
drop_path2 (source lines 88 and 92) exactly for that purpose; its forward adds
the raw attention and MLP outputs.  Scalar trace at x = 1 with identity norms
and MLP, attention acting as the identity, training mode, drop_path rate 1/2,
and a sample whose Bernoulli draw dropped the branch (mask = false): the
source computes 4, the claimed StochasticDepth-gated composition computes 1. -/
theorem block_forward_ignores_droppath :
    (blockForward (fun t : ℚ => t) (fun t : ℚ => (t, (0 : ℚ)))
        (fun t => dropPathSample (1 / 2) true true false t)
        (fun t => t) (fun t => t)
        (fun t => dropPathSample (1 / 2) true true false t) 1).1 ≠
      (blockForwardSpec (fun t : ℚ => t) (fun t : ℚ => (t, (0 : ℚ)))
        (fun t => dropPathSample (1 / 2) true true false t)
        (fun t => t) (fun t => t)
        (fun t => dropPathSample (1 / 2) true true false t) 1).1 := by
  norm_num [blockForward, blockForwardSpec, dropPathSample, dropPathFactor]

/-- Claim C1 (code bug): the channel width produced by a path's resample-in
transform at forward time does not always equal the working dimension the
path's Block was sized to at construction: with hidden_size=1, direction=1,
pixshuf_factor=3, num_path=3, path 3 is constructed at width
1 * 3^((3-1)*2) = 81 (make_path, line 144), but forward applies
nn.PixelUnshuffle(3*(3-1)) (line 173), which turns the (1, 1, 6, 6) map into
(1, 36, 1, 1): 36 channels, not 81. -/
theorem construction_forward_width_mismatch :
    resampleInShape (pathResample 1 (medianOf 3) 3 3) (Shape4.mk 1 1 6 6) =
      Except.ok (Shape4.mk 1 36 1 1) ∧
    workingDim 1 3 1 (medianOf 3) 3 = 81 ∧ (36 : Nat) ≠ 81 := by
  decide

lemma block_offset_lt (r h w : Nat) (hr : 0 < r) : h % r * r + w % r < r ^ 2 := by
  have ha : h % r < r := Nat.mod_lt _ hr
  have hb : w % r < r := Nat.mod_lt _ hr
  have h1 : h % r * r + w % r < h % r * r + r := by omega
  have h2 : h % r * r + r ≤ r * r := by
    have hstep : (h % r + 1) * r ≤ r * r := Nat.mul_le_mul_right r ha
    calc h % r * r + r = (h % r + 1) * r := by ring
      _ ≤ r * r := hstep
  calc h % r * r + w % r < h % r * r + r := h1
    _ ≤ r * r := h2
    _ = r ^ 2 := (pow_two r).symm

lemma pixelUnshuffle_then_shuffle (r : Nat) (t : Tensor4) (hr : 0 < r)
    (hH : t.H % r = 0) (hW : t.W % r = 0) :
    (pixelUnshuffleT r t).bind (pixelShuffleT r) = some t := by
  obtain ⟨B, C, H, W, d⟩ := t
  have hr2 : 0 < r ^ 2 := pow_pos hr 2
  unfold pixelUnshuffleT
  rw [if_pos ⟨hH, hW⟩]
  show pixelShuffleT r _ = _
  unfold pixelShuffleT
  rw [if_pos (Nat.mul_mod_left C (r ^ 2))]
  simp only [Option.some.injEq, Tensor4.mk.injEq]
  refine ⟨trivial, Nat.mul_div_cancel C hr2,
    Nat.div_mul_cancel (Nat.dvd_of_mod_eq_zero hH),
    Nat.div_mul_cancel (Nat.dvd_of_mod_eq_zero hW), ?_⟩
  funext b c h w
  have hq : h % r * r + w % r < r ^ 2 := block_offset_lt r h w hr
  have hX1 : (c * r ^ 2 + (h % r * r + w % r)) / r ^ 2 = c := by
    rw [Nat.add_comm (c * r ^ 2) (h % r * r + w % r),
      Nat.add_mul_div_right _ _ hr2, Nat.div_eq_of_lt hq, Nat.zero_add]
  have hX2 : (c * r ^ 2 + (h % r * r + w % r)) % r ^ 2 = h % r * r + w % r := by
    rw [Nat.add_comm (c * r ^ 2) (h % r * r + w % r),
      Nat.add_mul_mod_self_right, Nat.mod_eq_of_lt hq]
  have hq1 : (h % r * r + w % r) / r = h % r := by
    rw [Nat.add_comm (h % r * r) (w % r), Nat.add_mul_div_right _ _ hr,
      Nat.div_eq_of_lt (Nat.mod_lt _ hr), Nat.zero_add]
  have hq2 : (h % r * r + w % r) % r = w % r := by
    rw [Nat.add_comm (h % r * r) (w % r), Nat.add_mul_mod_self_right,
      Nat.mod_eq_of_lt (Nat.mod_lt _ hr)]
  have hh : h / r * r + h % r = h := by
    calc h / r * r + h % r = r * (h / r) + h % r := by ring
      _ = h := Nat.div_add_mod h r
  have hw : w / r * r + w % r = w := by
    calc w / r * r + w % r = r * (w / r) + w % r := by ring
      _ = w := Nat.div_add_mod w r
  rw [Nat.add_assoc (c * r ^ 2) (h % r * r) (w % r), hX1, hX2, hq1, hq2, hh, hw]

lemma pixelShuffle_then_unshuffle (r : Nat) (t : Tensor4) (hr : 0 < r)
    (hC : t.C % r ^ 2 = 0) :
    (pixelShuffleT r t).bind (pixelUnshuffleT r) = some t := by
  obtain ⟨B, C, H, W, d⟩ := t
  have hr2 : 0 < r ^ 2 := pow_pos hr 2
  unfold pixelShuffleT
  rw [if_pos hC]
  show pixelUnshuffleT r _ = _
  unfold pixelUnshuffleT
  rw [if_pos ⟨Nat.mul_mod_left H r, Nat.mul_mod_left W r⟩]
  simp only [Option.some.injEq, Tensor4.mk.injEq]
  refine ⟨trivial, Nat.div_mul_cancel (Nat.dvd_of_mod_eq_zero hC),
    Nat.mul_div_cancel H hr, Nat.mul_div_cancel W hr, ?_⟩
  funext b c h w
  have hq : c % r ^ 2 < r ^ 2 := Nat.mod_lt _ hr2
  have hqr : c % r ^ 2 / r < r := by
    have hlt : c % r ^ 2 < r * r := by
      rw [← pow_two]
      exact hq
    exact Nat.div_lt_iff_lt_mul hr |>.mpr hlt
  have hqm : c % r ^ 2 % r < r := Nat.mod_lt _ hr
  have hA : (h * r + c % r ^ 2 / r) % r = c % r ^ 2 / r := by
    rw [Nat.add_comm (h * r) (c % r ^ 2 / r), Nat.add_mul_mod_self_right,
      Nat.mod_eq_of_lt hqr]
  have hB : (h * r + c % r ^ 2 / r) / r = h := by
    rw [Nat.add_comm (h * r) (c % r ^ 2 / r), Nat.add_mul_div_right _ _ hr,
      Nat.div_eq_of_lt hqr, Nat.zero_add]
  have hE : (w * r + c % r ^ 2 % r) % r = c % r ^ 2 % r := by
    rw [Nat.add_comm (w * r) (c % r ^ 2 % r), Nat.add_mul_mod_self_right,
      Nat.mod_eq_of_lt hqm]
  have hF : (w * r + c % r ^ 2 % r) / r = w := by
    rw [Nat.add_comm (w * r) (c % r ^ 2 % r), Nat.add_mul_div_right _ _ hr,
      Nat.div_eq_of_lt hqm, Nat.zero_add]
  have hinner : c % r ^ 2 / r * r + c % r ^ 2 % r = c % r ^ 2 := by
    calc c % r ^ 2 / r * r + c % r ^ 2 % r
        = r * (c % r ^ 2 / r) + c % r ^ 2 % r := by ring
      _ = c % r ^ 2 := Nat.div_add_mod (c % r ^ 2) r
  have houter : c / r ^ 2 * r ^ 2 + c % r ^ 2 = c := by
    calc c / r ^ 2 * r ^ 2 + c % r ^ 2
        = r ^ 2 * (c / r ^ 2) + c % r ^ 2 := by ring
      _ = c := Nat.div_add_mod c (r ^ 2)
  rw [hA, hE, hB, hF, Nat.add_assoc, hinner, houter]

/-- Claim C6: for every feature-map tensor, composing the channel-expand
resample (nn.PixelUnshuffle) with the channel-shrink resample
(nn.PixelShuffle) at the same factor r, in either order, reproduces the input
exactly in shape and values; the first order needs both spatial sizes
divisible by r, the second needs the channel count divisible by r^2.  This
holds for every positive factor, which covers the factors 2, 3 and 4 named in
the spec. -/
theorem pixelshuffle_roundtrip (r : Nat) (t : Tensor4) (hr : 0 < r) :
    (t.H % r = 0 → t.W % r = 0 →
      (pixelUnshuffleT r t).bind (pixelShuffleT r) = some t) ∧
    (t.C % r ^ 2 = 0 →
      (pixelShuffleT r t).bind (pixelUnshuffleT r) = some t) :=
  ⟨fun hH hW => pixelUnshuffle_then_shuffle r t hr hH hW,
   fun hC => pixelShuffle_then_unshuffle r t hr hC⟩

/-- Witness for C6: a concrete (1, 4, 2, 2) tensor round-trips through both
compositions at factor 2. -/
theorem pixelshuffle_roundtrip_witness :
    ((pixelUnshuffleT 2 (Tensor4.mk 1 4 2 2 fun b c h w => (b + 2 * c + 3 * h + 5 * w : ℚ))).bind
        (pixelShuffleT 2) =
      some (Tensor4.mk 1 4 2 2 fun b c h w => (b + 2 * c + 3 * h + 5 * w : ℚ))) ∧
    ((pixelShuffleT 2 (Tensor4.mk 1 4 2 2 fun b c h w => (b + 2 * c + 3 * h + 5 * w : ℚ))).bind
        (pixelUnshuffleT 2) =
      some (Tensor4.mk 1 4 2 2 fun b c h w => (b + 2 * c + 3 * h + 5 * w : ℚ))) :=
  ⟨(pixelshuffle_roundtrip 2
      (Tensor4.mk 1 4 2 2 fun b c h w => (b + 2 * c + 3 * h + 5 * w : ℚ))
      (by decide)).1 (by decide) (by decide),
   (pixelshuffle_roundtrip 2
      (Tensor4.mk 1 4 2 2 fun b c h w => (b + 2 * c + 3 * h + 5 * w : ℚ))
      (by decide)).2 (by decide)⟩

lemma exceptPureBind {ε α β : Type} (a : α) (f : α → Except ε β) :
    (Except.ok a : Except ε α) >>= f = f a := rfl

lemma exceptErrorBind {ε α β : Type} (e : ε) (f : α → Except ε β) :
    (Except.error e : Except ε α) >>= f = Except.error e := rfl

/-- Conditions on a fixed spatial map (channels D, sizes H and W) under which
path i of _forward_each_paths restores its input exactly: the resample factor
is positive and divides what it must, and the channel count the path's Block
receives equals the width make_path constructed that Block with. -/
def pathOK (st : MWBState) (D H W i : Nat) : Bool :=
  match pathResample st.direction st.median st.pixshuf_factor i with
  | none => D == workingDim st.dim st.pixshuf_factor st.direction st.median i
  | some (RKind.unshuffle, r) =>
    decide (0 < r) && decide (H % r = 0) && decide (W % r = 0) &&
      (D * r ^ 2 == workingDim st.dim st.pixshuf_factor st.direction st.median i)
  | some (RKind.shuffle, r) =>
    decide (0 < r) && decide (D % r ^ 2 = 0) &&
      (D / r ^ 2 == workingDim st.dim st.pixshuf_factor st.direction st.median i)

lemma pathStep_ok (st : MWBState) (B D H W i : Nat)
    (h : pathOK st D H W i = true) :
    pathStep st i (Shape4.mk B D H W) = Except.ok (Shape4.mk B D H W) := by
  unfold pathOK at h
  unfold pathStep
  cases hspec : pathResample st.direction st.median st.pixshuf_factor i with
  | none =>
    rw [hspec] at h
    rw [beq_iff_eq] at h
    simp [resampleInShape, resampleOutShape, blockShape, exceptPureBind, h]
  | some p =>
    obtain ⟨k, r⟩ := p
    cases k with
    | unshuffle =>
      rw [hspec] at h
      simp only [Bool.and_eq_true, decide_eq_true_eq, beq_iff_eq] at h
      obtain ⟨⟨⟨hr, hH⟩, hW⟩, hwd⟩ := h
      have hmod : D * r ^ 2 % r ^ 2 = 0 := Nat.mul_mod_left D (r ^ 2)
      have hcr : D * r ^ 2 / r ^ 2 = D := Nat.mul_div_cancel D (pow_pos hr 2)
      have hH2 : H / r * r = H := Nat.div_mul_cancel (Nat.dvd_of_mod_eq_zero hH)
      have hW2 : W / r * r = W := Nat.div_mul_cancel (Nat.dvd_of_mod_eq_zero hW)
      simp [resampleInShape, pixelUnshuffleShape, blockShape, resampleOutShape,
        pixelShuffleShape, exceptPureBind, hH, hW, ← hwd, hmod, hcr, hH2, hW2]
    | shuffle =>
      rw [hspec] at h
      simp only [Bool.and_eq_true, decide_eq_true_eq, beq_iff_eq] at h
      obtain ⟨⟨hr, hDv⟩, hwd⟩ := h
      have hmodH : H * r % r = 0 := Nat.mul_mod_left H r
      have hmodW : W * r % r = 0 := Nat.mul_mod_left W r
      have hcr : D / r ^ 2 * r ^ 2 = D := Nat.div_mul_cancel (Nat.dvd_of_mod_eq_zero hDv)
      have hH2 : H * r / r = H := Nat.mul_div_cancel H hr
      have hW2 : W * r / r = W := Nat.mul_div_cancel W hr
      simp [resampleInShape, pixelShuffleShape, blockShape, resampleOutShape,
        pixelUnshuffleShape, exceptPureBind, hDv, ← hwd, hmodH, hmodW, hcr, hH2, hW2]

lemma pathsLoop_ok (st : MWBState) (B D H W : Nat) :
    ∀ (l : List Nat), (∀ i ∈ l, pathOK st D H W i = true) →
    ∀ (feats : List Shape4) (probs : Option Nat),
      ∃ p, pathsLoop st l (Shape4.mk B D H W) feats probs =
        Except.ok (Shape4.mk B D H W,
          feats ++ List.replicate l.length (Shape4.mk B D H W), p) := by
  intro l
  induction l with
  | nil =>
    intro _ feats probs
    exact ⟨probs, by simp [pathsLoop]⟩
  | cons i rest ih =>
    intro hl feats probs
    have hstep := pathStep_ok st B D H W i (hl i (by simp))
    obtain ⟨p, hp⟩ :=
      ih (fun j hj => hl j (by simp [hj])) (feats ++ [Shape4.mk B D H W]) (some i)
    refine ⟨p, ?_⟩
    have hlist : (feats ++ [Shape4.mk B D H W]) ++
        List.replicate rest.length (Shape4.mk B D H W) =
        feats ++ List.replicate (rest.length + 1) (Shape4.mk B D H W) := by
      rw [List.append_assoc, List.singleton_append, ← List.replicate_succ]
    calc pathsLoop st (i :: rest) (Shape4.mk B D H W) feats probs
        = pathsLoop st rest (Shape4.mk B D H W)
            (feats ++ [Shape4.mk B D H W]) (some i) := by
          simp [pathsLoop, hstep, exceptPureBind]
      _ = Except.ok (Shape4.mk B D H W,
            feats ++ List.replicate (i :: rest).length (Shape4.mk B D H W), p) := by
          rw [hp, hlist]
          simp

lemma catShapes_fold (s : Shape4) :
    ∀ (m c : Nat),
      (List.replicate m s).foldlM catStep (Shape4.mk s.B c s.H s.W) =
        Except.ok (Shape4.mk s.B (c + m * s.C) s.H s.W) := by
  intro m
  induction m with
  | zero =>
    intro c
    show Except.ok (Shape4.mk s.B c s.H s.W) = _
    simp
  | succ k ih =>
    intro c
    rw [List.replicate_succ, List.foldlM_cons]
    have hstep : catStep (Shape4.mk s.B c s.H s.W) s =
        Except.ok (Shape4.mk s.B (c + s.C) s.H s.W) := by
      unfold catStep
      rw [if_pos ⟨rfl, rfl, rfl⟩]
    rw [hstep, exceptPureBind, ih (c + s.C)]
    have harith : c + s.C + k * s.C = c + (k + 1) * s.C := by ring
    rw [harith]

lemma catShapes_replicate (n : Nat) (hn : 0 < n) (s : Shape4) :
    catShapes (List.replicate n s) = Except.ok (Shape4.mk s.B (n * s.C) s.H s.W) := by
  obtain ⟨m, rfl⟩ : ∃ m, n = m + 1 := ⟨n - 1, by omega⟩
  rw [List.replicate_succ]
  show (List.replicate m s).foldlM catStep s = _
  have hs : s = Shape4.mk s.B s.C s.H s.W := rfl
  rw [hs, catShapes_fold s m s.C]
  have harith : s.C + m * s.C = (m + 1) * s.C := by ring
  rw [harith]

lemma sumShapes_replicate (n : Nat) (hn : 0 < n) (s : Shape4) :
    sumShapes (List.replicate n s) = Except.ok s := by
  obtain ⟨m, rfl⟩ : ∃ m, n = m + 1 := ⟨n - 1, by omega⟩
  clear hn
  rw [List.replicate_succ]
  show (List.replicate m s).foldlM sumStep s = _
  induction m with
  | zero => rfl
  | succ k ih =>
    rw [List.replicate_succ, List.foldlM_cons]
    have hstep : sumStep s s = Except.ok s := by
      unfold sumStep
      rw [if_pos rfl]
    rw [hstep, exceptPureBind]
    exact ih

/-- Claim C3 (corrected): for every constructed configuration and every
well-formed input of shape (B, N, D) with N a perfect square, D the configured
hidden size, and every path satisfying its divisibility conditions AND
feeding its Block exactly the width the Block was constructed with (pathOK),
MultiWayBlock.forward returns an output of exactly the input shape, for any
num_path, any direction and either fusion mode.  The extra pathOK hypothesis
is forced by the width-mismatch counterexample below: the claim as stated,
quantified over all valid configurations, is false. -/
theorem multiwayblock_forward_shape_preserved (cfg : Config) (B N D : Nat)
    (hsq : isqrt N * isqrt N = N)
    (hD : D = cfg.hidden_size)
    (hnp : 1 ≤ cfg.num_path)
    (hpaths : ∀ i ∈ List.range' 1 cfg.num_path,
      pathOK (mwbState cfg) D (isqrt N) (isqrt N) i = true) :
    ∃ p, mwbForwardShape (mwbState cfg) (Shape3.mk B N D) =
      Except.ok (Shape3.mk B N D, p) := by
  have hnum : (mwbState cfg).num_path = cfg.num_path := rfl
  have hdim : (mwbState cfg).dim = cfg.hidden_size := rfl
  have htot : (mwbState cfg).total_dim = cfg.hidden_size * cfg.num_path := rfl
  obtain ⟨p, hloop⟩ := pathsLoop_ok (mwbState cfg) B D (isqrt N) (isqrt N)
    (List.range' 1 cfg.num_path) hpaths [] none
  refine ⟨p, ?_⟩
  have hview1 : B * N * D = B * D * (isqrt N * isqrt N) := by
    rw [hsq]
    ring
  have hlen : (List.range' 1 cfg.num_path).length = cfg.num_path := by
    simp
  have hcat := catShapes_replicate cfg.num_path (by omega)
    (Shape4.mk B D (isqrt N) (isqrt N))
  have hsum := sumShapes_replicate cfg.num_path (by omega)
    (Shape4.mk B D (isqrt N) (isqrt N))
  have hview2 : B * (cfg.num_path * D) * (isqrt N * isqrt N) =
      B * (mwbState cfg).total_dim * N := by
    rw [htot, ← hD]
    calc B * (cfg.num_path * D) * (isqrt N * isqrt N)
        = B * (D * cfg.num_path) * (isqrt N * isqrt N) := by ring
      _ = B * (D * cfg.num_path) * N := by rw [hsq]
  have hview3 : B * D * (isqrt N * isqrt N) = B * (mwbState cfg).dim * N := by
    rw [hdim, ← hD, hsq]
  unfold mwbForwardShape
  rw [if_pos hview1]
  rw [hnum]
  simp only [exceptPureBind]
  rw [hloop]
  simp only [exceptPureBind, List.nil_append, hlen]
  cases hc : (mwbState cfg).concat with
  | false =>
    simp only [hc, Bool.false_eq_true, if_false, hsum, exceptPureBind]
    rw [if_pos hview3]
    rw [hdim, ← hD]
  | true =>
    simp only [hc, if_true, hcat, exceptPureBind]
    rw [if_pos hview2]
    rw [hdim, ← hD]

/-- Counterexample for C3 as stated: hidden_size=1, num_path=3, direction=1,
pixshuf_factor=3 constructs fine, and the input (1, 36, 1) is well-formed
(N = 36 = 6 * 6, side 6 divisible by both resample factors 3 and 6, channel
count equal to hidden_size), yet forward raises a width mismatch inside path 3
instead of returning a tensor of the input shape. -/
theorem mwb_forward_width_mismatch_errors :
    mwbInit (Config.mk 1 3 1 3 false) =
      Except.ok (mwbState (Config.mk 1 3 1 3 false), Config.mk 1 3 1 3 false) ∧
    mwbForwardShape (mwbState (Config.mk 1 3 1 3 false)) (Shape3.mk 1 36 1) =
      Except.error ShapeError.widthMismatch := by
  constructor
  · rfl
  · decide

/-- Witness for C3 at the spec's own end-to-end example: hidden_size=64,
num_path=3, direction=0, pixshuf_factor=2, concat=false, input (2, 196, 64). -/
theorem multiwayblock_forward_shape_preserved_witness :
    ∃ p, mwbForwardShape (mwbState (Config.mk 64 3 0 2 false)) (Shape3.mk 2 196 64) =
      Except.ok (Shape3.mk 2 196 64, p) :=
  multiwayblock_forward_shape_preserved (Config.mk 64 3 0 2 false) 2 196 64
    (by decide) rfl (by decide) (by decide)

lemma exceptBind_ok {ε α β : Type} (x : Except ε α) (f : α → Except ε β) (c : β)
    (h : x >>= f = Except.ok c) : ∃ b, x = Except.ok b ∧ f b = Except.ok c := by
  cases x with
  | error e =>
    rw [exceptErrorBind] at h
    exact Except.noConfusion h
  | ok b =>
    rw [exceptPureBind] at h
    exact ⟨b, rfl, h⟩

lemma pathsLoop_probs (st : MWBState) :
    ∀ (l : List Nat) (x : Shape4) (feats : List Shape4) (probs : Option Nat)
      (res : Shape4 × List Shape4 × Option Nat),
      pathsLoop st l x feats probs = Except.ok res →
      res.2.2 = (match l.getLast? with
        | some j => some j
        | none => probs) := by
  intro l
  induction l with
  | nil =>
    intro x feats probs res h
    rw [show pathsLoop st [] x feats probs = Except.ok (x, feats, probs) from rfl] at h
    injection h with h2
    rw [← h2]
    rfl
  | cons i rest ih =>
    intro x feats probs res h
    rw [show pathsLoop st (i :: rest) x feats probs =
      pathStep st i x >>= fun x1 =>
        pathsLoop st rest x1 (feats ++ [x1]) (some i) from rfl] at h
    obtain ⟨x1, _, hrest⟩ := exceptBind_ok _ _ _ h
    have hres := ih x1 (feats ++ [x1]) (some i) res hrest
    cases rest with
    | nil => simpa using hres
    | cons a as => simpa [List.getLast?_cons_cons] using hres

lemma range'_getLast (n : Nat) (hn : 1 ≤ n) :
    (List.range' 1 n).getLast? = some n := by
  obtain ⟨m, rfl⟩ : ∃ m, n = m + 1 := ⟨n - 1, by omega⟩
  rw [List.range'_concat, List.getLast?_concat]
  simp [Nat.add_comm]

lemma mwbForwardShape_probs (st : MWBState) (s : Shape3)
    (out : Shape3 × Option Nat) (h : mwbForwardShape st s = Except.ok out) :
    ∃ r, pathsLoop st (List.range' 1 st.num_path)
        (Shape4.mk s.B s.D (isqrt s.N) (isqrt s.N)) [] none = Except.ok r ∧
      out.2 = r.2.2 := by
  unfold mwbForwardShape at h
  simp only [] at h
  by_cases hcond : s.B * s.N * s.D = s.B * s.D * (isqrt s.N * isqrt s.N)
  · rw [if_pos hcond] at h
    rw [exceptPureBind] at h
    obtain ⟨r, hr, h2⟩ := exceptBind_ok _ _ _ h
    refine ⟨r, hr, ?_⟩
    by_cases hc : st.concat = true
    · rw [if_pos hc] at h2
      obtain ⟨c, _, h3⟩ := exceptBind_ok _ _ _ h2
      by_cases hview : c.B * c.C * (c.H * c.W) = s.B * st.total_dim * s.N
      · rw [if_pos hview] at h3
        rw [exceptPureBind] at h3
        rw [if_pos rfl] at h3
        injection h3 with h4
        rw [← h4]
      · rw [if_neg hview] at h3
        rw [exceptErrorBind] at h3
        exact Except.noConfusion h3
    · rw [if_neg hc] at h2
      obtain ⟨f, _, h3⟩ := exceptBind_ok _ _ _ h2
      by_cases hview : f.B * f.C * (f.H * f.W) = s.B * st.dim * s.N
      · rw [if_pos hview] at h3
        injection h3 with h4
        rw [← h4]
      · rw [if_neg hview] at h3
        exact Except.noConfusion h3
  · rw [if_neg hcond] at h
    rw [exceptErrorBind] at h
    exact Except.noConfusion h

/-- Claim C7: whenever MultiWayBlock.forward returns at all and there is at
least one path, the attention-probability tensor it returns is exactly the
one produced by the path with the highest index (path num_path, the last one
the loop in _forward_each_paths processed); all other paths' attention maps
are discarded.  In the model the returned probability tensor is tracked by
the index of the path that produced it. -/
theorem multiwayblock_forward_returns_last_path_attn
    (st : MWBState) (s : Shape3) (out : Shape3 × Option Nat)
    (hok : mwbForwardShape st s = Except.ok out) (hnp : 1 ≤ st.num_path) :
    out.2 = some st.num_path := by
  obtain ⟨r, hr, hout⟩ := mwbForwardShape_probs st s out hok
  have hlast := pathsLoop_probs st (List.range' 1 st.num_path) _ [] none r hr
  rw [range'_getLast st.num_path hnp] at hlast
  rw [hout, hlast]

/-- Witness for C7 at hidden_size=64, num_path=3, direction=0,
pixshuf_factor=2, concat=false, input (2, 196, 64): the returned attention
map is path 3's. -/
theorem multiwayblock_forward_returns_last_path_attn_witness :
    ((Shape3.mk 2 196 64, some 3) : Shape3 × Option Nat).2 =
      some (mwbState (Config.mk 64 3 0 2 false)).num_path :=
  multiwayblock_forward_returns_last_path_attn
    (mwbState (Config.mk 64 3 0 2 false)) (Shape3.mk 2 196 64)
    (Shape3.mk 2 196 64, some 3) (by decide) (by decide)

/-- Claim C8 (corrected): for every input with at least one batch element and
at least one channel whose token count N is not a perfect square, the first
view of MultiWayBlock.forward (line 196) raises a shape error, because
B*N*D elements cannot fill (B, D, isqrt(N), isqrt(N)).  The batch >= 1 and
channel >= 1 hypotheses are forced by the counterexample below: on an empty
batch every view holds zero elements and forward silently returns. -/
theorem mwb_forward_nonsquare_raises (st : MWBState) (B N D : Nat)
    (hB : 0 < B) (hD : 0 < D) (hN : isqrt N * isqrt N ≠ N) :
    mwbForwardShape st (Shape3.mk B N D) = Except.error ShapeError.viewMismatch := by
  have hcond : ¬ (B * N * D = B * D * (isqrt N * isqrt N)) := by
    intro h
    apply hN
    have h1 : B * D * N = B * D * (isqrt N * isqrt N) := by
      calc B * D * N = B * N * D := by ring
        _ = B * D * (isqrt N * isqrt N) := h
    exact (Nat.eq_of_mul_eq_mul_left (Nat.mul_pos hB hD) h1).symm
  unfold mwbForwardShape
  rw [if_neg hcond]
  exact exceptErrorBind _ _

/-- Counterexample for C8 as stated: on an empty batch (B = 0) with N = 10
(not a perfect square), every view holds zero elements, so PyTorch accepts
them and forward silently returns a tensor instead of raising. -/
theorem mwb_forward_empty_batch_silent :
    mwbForwardShape (mwbState (Config.mk 64 1 0 2 false)) (Shape3.mk 0 10 64) =
      Except.ok (Shape3.mk 0 10 64, some 1) ∧
    isqrt 10 * isqrt 10 ≠ 10 := by
  constructor
  · decide
  · decide

/-- Witness for C8: batch 1, channel 64, N = 10. -/
theorem mwb_forward_nonsquare_raises_witness :
    mwbForwardShape (mwbState (Config.mk 64 1 0 2 false)) (Shape3.mk 1 10 64) =
      Except.error ShapeError.viewMismatch :=
  mwb_forward_nonsquare_raises (mwbState (Config.mk 64 1 0 2 false)) 1 10 64
    (by decide) (by decide) (by decide)

/-- Claim C9: the attention-probability tensor MultiHeadSelfAttention.forward
returns is the softmax output bound at line 52, before attention dropout is
applied at line 53 — replacing the dropout map by any other map leaves the
returned probabilities unchanged — and for every batch element, head and
query position its weights over the key axis sum to exactly 1 (hence within
the 1e-5 tolerance). -/
theorem mhsa_attn_probs_row_sums_one (B nh N dh : Nat) (hN : 0 < N)
    (q k v : Fin B → Fin nh → Fin N → Fin dh → ℝ) (scale : ℝ)
    (d1 d2 :
      (Fin B → Fin nh → Fin N → Fin N → ℝ) → Fin B → Fin nh → Fin N → Fin N → ℝ)
    (proj projDrop :
      (Fin B → Fin N → Fin nh → Fin dh → ℝ) → Fin B → Fin N → Fin nh → Fin dh → ℝ)
    (b : Fin B) (hh : Fin nh) (i : Fin N) :
    (∑ j, (mhsaForward q k v scale d1 proj projDrop).2 b hh i j) = 1 ∧
    |(∑ j, (mhsaForward q k v scale d1 proj projDrop).2 b hh i j) - 1| ≤ 1 / 100000 ∧
    (mhsaForward q k v scale d1 proj projDrop).2 =
      (mhsaForward q k v scale d2 proj projDrop).2 := by
  have hsum : (∑ j, (mhsaForward q k v scale d1 proj projDrop).2 b hh i j) = 1 := by
    show (∑ j, softmaxRow (fun j2 => (∑ d, q b hh i d * k b hh j2 d) * scale) j) = 1
    unfold softmaxRow
    rw [← Finset.sum_div]
    apply div_self
    haveI : Nonempty (Fin N) := Fin.pos_iff_nonempty.mp hN
    have hpos : 0 < ∑ j, Real.exp ((∑ d, q b hh i d * k b hh j d) * scale) :=
      Finset.sum_pos (fun j _ => Real.exp_pos _) Finset.univ_nonempty
    exact ne_of_gt hpos
  refine ⟨hsum, ?_, rfl⟩
  rw [hsum]
  norm_num

/-- Witness for C9 at B = heads = N = head_dim = 1, zero projections, unit
scale, identity dropout and output maps. -/
theorem mhsa_attn_probs_row_sums_one_witness :
    (∑ j, (@mhsaForward 1 1 1 1 (fun _ _ _ _ => (0 : ℝ)) (fun _ _ _ _ => 0)
        (fun _ _ _ _ => 0) 1 (fun a => a) (fun a => a) (fun a => a)).2 0 0 0 j) = 1 ∧
    |(∑ j, (@mhsaForward 1 1 1 1 (fun _ _ _ _ => (0 : ℝ)) (fun _ _ _ _ => 0)
        (fun _ _ _ _ => 0) 1 (fun a => a) (fun a => a) (fun a => a)).2 0 0 0 j) - 1| ≤
      1 / 100000 ∧
    (@mhsaForward 1 1 1 1 (fun _ _ _ _ => (0 : ℝ)) (fun _ _ _ _ => 0)
        (fun _ _ _ _ => 0) 1 (fun a => a) (fun a => a) (fun a => a)).2 =
      (@mhsaForward 1 1 1 1 (fun _ _ _ _ => (0 : ℝ)) (fun _ _ _ _ => 0)
        (fun _ _ _ _ => 0) 1 (fun a => a) (fun a => a) (fun a => a)).2 :=
  mhsa_attn_probs_row_sums_one 1 1 1 1 (by decide)
    (fun _ _ _ _ => 0) (fun _ _ _ _ => 0) (fun _ _ _ _ => 0) 1
    (fun a => a) (fun a => a) (fun a => a) (fun a => a) 0 0 0
